import Mathlib

/-!
Verification of the Gear-Pool equipment rental system's reservation engine
against its documentation.

The executable sources of the repository are React presentational components
(`src/pages/Equipment.tsx`, `src/components/EquipmentCard.tsx`); the
reservation engine itself exists in the repository only as SQL and TypeScript
fragments embedded in `Docs/DATABASE_SCHEMA.md` and `Docs/ARCHITECTURE.md`
and as the design described in the specification.  Definitions below are
translated from those SQL/TypeScript fragments where they exist; where only
the specification describes the behaviour, the definition is modelled from
the spec and its doc comment says so.

Timestamps are modelled as integers (`Int`); reservation intervals are
half-open `[startDate, endDate)` as the documentation states.
-/

/-- Reservation status, from the SQL enum `reservation_status` in
`Docs/DATABASE_SCHEMA.md`:
`('pending', 'approved', 'rejected', 'active', 'completed', 'cancelled', 'overdue')`. -/
inductive ReservationStatus where
  | pending
  | approved
  | rejected
  | active
  | completed
  | cancelled
  | overdue
deriving DecidableEq, Repr

/-- A reservation row, from the `reservations` table of
`Docs/DATABASE_SCHEMA.md`, restricted to the columns the conflict logic
reads; following the engine design each reservation here carries one
equipment item and a requested quantity (a `reservation_items` row folded
into its reservation). -/
structure Reservation where
  id : Nat
  equipmentId : Nat
  quantity : Nat
  startDate : Int
  endDate : Int
  status : ReservationStatus
deriving DecidableEq, Repr

/-- A status counts toward allocation when it is in `{approved, active}`,
the status filter of `check_equipment_conflicts`
(`r.status IN ('approved', 'active')`). -/
def committedStatus (s : ReservationStatus) : Bool :=
  s == ReservationStatus.approved || s == ReservationStatus.active

/-- The three-disjunct conflict condition of the SQL function
`check_equipment_conflicts` in `Docs/DATABASE_SCHEMA.md`:
`(p_start >= r.start AND p_start < r.end) OR
 (p_end > r.start AND p_end <= r.end) OR
 (p_start <= r.start AND p_end >= r.end)`,
with `rs`/`re` the existing reservation's interval and `ps`/`pe` the
requested one. -/
def sqlConflictCond (rs re ps pe : Int) : Bool :=
  (decide (ps ≥ rs) && decide (ps < re)) ||
  (decide (pe > rs) && decide (pe ≤ re)) ||
  (decide (ps ≤ rs) && decide (pe ≥ re))

/-- The specification's single overlap test for two reservations
(`existing.start < requested.end AND existing.end > requested.start`),
written from the spec's words for comparison with `sqlConflictCond`. -/
def specOverlap (rs re ps pe : Int) : Bool :=
  decide (rs < pe) && decide (re > ps)

/-- The SQL function `check_equipment_conflicts` from
`Docs/DATABASE_SCHEMA.md`, over a list of reservation rows: keep the
reservations on the given equipment whose status is in
`{approved, active}`, whose id differs from the excluded one
(`r.id != COALESCE(p_exclude_reservation_id, sentinel)`), and whose
interval satisfies the three-disjunct conflict condition. -/
def check_equipment_conflicts (rows : List Reservation) (equipmentId : Nat)
    (pStart pEnd : Int) (excludeId : Option Nat) : List Reservation :=
  rows.filter fun r =>
    r.equipmentId == equipmentId && committedStatus r.status &&
      (some r.id != excludeId) && sqlConflictCond r.startDate r.endDate pStart pEnd

/-- C3: for well-formed intervals (start strictly before end on both sides),
the three-disjunct conflict condition of `check_equipment_conflicts` holds
exactly when the spec's single overlap test
`existing.start < requested.end AND existing.end > requested.start` holds. -/
theorem sqlConflictCond_iff_specOverlap (rs re ps pe : Int)
    (hr : rs < re) (hp : ps < pe) :
    sqlConflictCond rs re ps pe = true ↔ specOverlap rs re ps pe = true := by
  simp only [sqlConflictCond, specOverlap, Bool.or_eq_true, Bool.and_eq_true,
    decide_eq_true_eq]
  omega

/-- Witness for C3 at a concrete overlapping pair: existing `[0, 2)`,
requested `[1, 3)`. -/
theorem sqlConflictCond_iff_specOverlap_witness :
    (sqlConflictCond 0 2 1 3 = true ↔ specOverlap 0 2 1 3 = true) :=
  sqlConflictCond_iff_specOverlap 0 2 1 3 (by decide) (by decide)

/-- Errors of the reservation engine, from the specification's error
taxonomy (§7) together with the cycle rejection of §4.1:
`ValidationError`, `EquipmentUnavailable` (naming the conflicting
reservations), `InvalidStateTransition` (naming current and requested
state), `CycleDetected` for a dependency-definition cycle. -/
inductive EngineError where
  | ValidationError
  | EquipmentUnavailable (conflicts : List Nat)
  | InvalidStateTransition (fromStatus toStatus : ReservationStatus)
  | CycleDetected
deriving DecidableEq, Repr

/-- Modelled from the spec: the persistent state the ReservationEngine
mutates, a store of reservation rows plus a fresh-id counter (the engine
itself is absent from the executable sources). -/
structure EngineState where
  reservations : List Reservation
  nextId : Nat
deriving DecidableEq, Repr

/-- The engine state with no reservations. -/
def emptyState : EngineState := ⟨[], 0⟩

/-- Modelled from the spec (§4.1): a reservation competes with a request
for `equipmentId` over `[pStart, pEnd)` when it is for the same item, its
status is committed (`approved`/`active`), and its interval overlaps the
requested one under the spec's overlap test. -/
def overlapsRequest (equipmentId : Nat) (pStart pEnd : Int) (r : Reservation) : Bool :=
  r.equipmentId == equipmentId && committedStatus r.status &&
    specOverlap r.startDate r.endDate pStart pEnd

/-- The reservations of `rows` competing with a request. -/
def conflictingReservations (rows : List Reservation) (equipmentId : Nat)
    (pStart pEnd : Int) : List Reservation :=
  rows.filter (overlapsRequest equipmentId pStart pEnd)

/-- Sum of quantities already committed against a request, the
`sum(existing)` of the spec's algorithm. -/
def committedOverlapSum (rows : List Reservation) (equipmentId : Nat)
    (pStart pEnd : Int) : Nat :=
  ((conflictingReservations rows equipmentId pStart pEnd).map Reservation.quantity).sum

/-- Modelled from the spec: `createReservation` (§4.1), specialised to a
single requested item per call (`requestedItems` handled item by item).
Validation: the interval must satisfy `end > start`, else
`ValidationError`.  Algorithm: sum the quantities already committed by
overlapping reservations; if `sum(existing) + requested.quantity >
item.totalQuantity`, reject with `EquipmentUnavailable` naming the
conflicting reservations; otherwise persist the reservation in status
`pending`, or `approved` directly when the tenant is configured to skip
approval (`autoApprove`). -/
def createReservation (totalQuantity : Nat → Nat) (autoApprove : Bool)
    (st : EngineState) (equipmentId qty : Nat) (pStart pEnd : Int) :
    Except EngineError EngineState :=
  if pEnd ≤ pStart then
    Except.error EngineError.ValidationError
  else
    let conflicts := conflictingReservations st.reservations equipmentId pStart pEnd
    if (conflicts.map Reservation.quantity).sum + qty > totalQuantity equipmentId then
      Except.error (EngineError.EquipmentUnavailable (conflicts.map Reservation.id))
    else
      Except.ok
        ⟨⟨st.nextId, equipmentId, qty, pStart, pEnd,
            if autoApprove then ReservationStatus.approved else ReservationStatus.pending⟩
           :: st.reservations,
         st.nextId + 1⟩

/-- One createReservation request: item, quantity, interval, and whether
the tenant is configured to skip approval. -/
structure ReservationRequest where
  equipmentId : Nat
  quantity : Nat
  startDate : Int
  endDate : Int
  autoApprove : Bool
deriving DecidableEq, Repr

/-- Apply one request to the state: a failed `createReservation` leaves
the state unchanged. -/
def stepCreate (totalQuantity : Nat → Nat) (st : EngineState)
    (req : ReservationRequest) : EngineState :=
  match createReservation totalQuantity req.autoApprove st req.equipmentId
      req.quantity req.startDate req.endDate with
  | Except.ok st2 => st2
  | Except.error _ => st

/-- Apply a sequence of createReservation requests. -/
def processAll (totalQuantity : Nat → Nat) (reqs : List ReservationRequest)
    (st : EngineState) : EngineState :=
  reqs.foldl (stepCreate totalQuantity) st

/-- A reservation's half-open interval `[startDate, endDate)` covers the
time point `t`. -/
def covers (r : Reservation) (t : Int) : Bool :=
  decide (r.startDate ≤ t) && decide (t < r.endDate)

/-- Total committed quantity of an equipment item at one point in time:
the sum of the quantities of the committed (`approved`/`active`)
reservations of that item whose intervals cover `t`. -/
def pointLoad (rows : List Reservation) (equipmentId : Nat) (t : Int) : Nat :=
  ((rows.filter fun r =>
      r.equipmentId == equipmentId && committedStatus r.status && covers r t).map
    Reservation.quantity).sum

/-- Summing a mapped filter is monotone in the filter predicate. -/
theorem sum_map_filter_le (f : Reservation → Nat) (p q : Reservation → Bool)
    (h : ∀ r, p r = true → q r = true) :
    ∀ rows : List Reservation,
      ((rows.filter p).map f).sum ≤ ((rows.filter q).map f).sum := by
  intro rows
  induction rows with
  | nil => simp
  | cons a l ih =>
    by_cases hp : p a = true
    · have hq : q a = true := h a hp
      simp only [List.filter_cons, hp, hq, if_true, List.map_cons, List.sum_cons]
      exact Nat.add_le_add_left ih _
    · have hp2 : p a = false := by
        cases hpa : p a
        · rfl
        · exact absurd hpa hp
      by_cases hq : q a = true
      · simp only [List.filter_cons, hp2, hq, if_true, Bool.false_eq_true, if_false,
          List.map_cons, List.sum_cons]
        exact ih.trans (Nat.le_add_left _ _)
      · have hq2 : q a = false := by
          cases hqa : q a
          · rfl
          · exact absurd hqa hq
        simp only [List.filter_cons, hp2, hq2, Bool.false_eq_true, if_false]
        exact ih

/-- Characterisation of a successful `createReservation`: the interval is
well-formed, the committed overlapping quantity plus the request fits in
the item's total quantity, and the resulting state is the old one with the
new reservation row prepended. -/
theorem createReservation_ok_elim (totalQuantity : Nat → Nat) (autoApprove : Bool)
    (st st2 : EngineState) (equipmentId qty : Nat) (pStart pEnd : Int)
    (hok : createReservation totalQuantity autoApprove st equipmentId qty pStart pEnd =
      Except.ok st2) :
    pStart < pEnd ∧
    committedOverlapSum st.reservations equipmentId pStart pEnd + qty ≤
      totalQuantity equipmentId ∧
    st2 = ⟨⟨st.nextId, equipmentId, qty, pStart, pEnd,
             if autoApprove then ReservationStatus.approved else ReservationStatus.pending⟩
            :: st.reservations,
           st.nextId + 1⟩ := by
  simp only [createReservation] at hok
  split at hok
  · exact absurd hok (by simp)
  · next hlt =>
    split at hok
    · exact absurd hok (by simp)
    · next hsum =>
      refine ⟨by omega, ?_, ?_⟩
      · simpa [committedOverlapSum] using Nat.le_of_not_lt hsum
      · exact (Except.ok.injEq _ _ ▸ hok).symm

/-- A reservation counted in the point load at a time inside the requested
interval also counts in the committed overlapping sum of that request. -/
theorem pointLoad_le_committedOverlapSum (rows : List Reservation)
    (equipmentId : Nat) (pStart pEnd t : Int)
    (h1 : pStart ≤ t) (h2 : t < pEnd) :
    pointLoad rows equipmentId t ≤ committedOverlapSum rows equipmentId pStart pEnd := by
  unfold pointLoad committedOverlapSum conflictingReservations
  refine sum_map_filter_le _ _ _ ?_ rows
  intro r hr
  simp only [Bool.and_eq_true, covers, decide_eq_true_eq] at hr
  obtain ⟨⟨heq, hcom⟩, hcov1, hcov2⟩ := hr
  simp only [overlapsRequest, Bool.and_eq_true, specOverlap, decide_eq_true_eq]
  exact ⟨⟨heq, hcom⟩, by omega, by omega⟩

/-- The point load of a list with one more reservation row: the new row
contributes its quantity exactly when it is selected by the point-load
filter. -/
theorem pointLoad_cons (r : Reservation) (rows : List Reservation)
    (equipmentId : Nat) (t : Int) :
    pointLoad (r :: rows) equipmentId t =
      (if r.equipmentId == equipmentId && committedStatus r.status && covers r t
        then r.quantity else 0) + pointLoad rows equipmentId t := by
  by_cases h : (r.equipmentId == equipmentId && committedStatus r.status && covers r t) = true
  · simp [pointLoad, List.filter_cons, h]
  · simp only [Bool.not_eq_true] at h
    simp [pointLoad, List.filter_cons, h]

/-- The cons equation for `pointLoad` with the selection condition as a
proposition, for a reservation row given fieldwise. -/
theorem pointLoad_cons_mk (idn equipmentId0 qty : Nat) (ps pe : Int)
    (s : ReservationStatus) (rows : List Reservation) (e : Nat) (t : Int) :
    pointLoad (⟨idn, equipmentId0, qty, ps, pe, s⟩ :: rows) e t =
      (if equipmentId0 = e ∧ committedStatus s = true ∧ ps ≤ t ∧ t < pe
        then qty else 0) + pointLoad rows e t := by
  rw [pointLoad_cons]
  simp only [covers, Bool.and_eq_true, beq_iff_eq, decide_eq_true_eq, and_assoc]

/-- A successful `createReservation` preserves the allocation invariant:
if no equipment item was over-allocated at any time point before the call,
none is after it. -/
theorem createReservation_preserves_invariant (totalQuantity : Nat → Nat)
    (autoApprove : Bool) (st st2 : EngineState) (equipmentId qty : Nat)
    (pStart pEnd : Int)
    (hok : createReservation totalQuantity autoApprove st equipmentId qty pStart pEnd =
      Except.ok st2)
    (hinv : ∀ e t, pointLoad st.reservations e t ≤ totalQuantity e) :
    ∀ e t, pointLoad st2.reservations e t ≤ totalQuantity e := by
  obtain ⟨hlt, hsum, hst2⟩ :=
    createReservation_ok_elim totalQuantity autoApprove st st2 equipmentId qty
      pStart pEnd hok
  subst hst2
  intro e t
  rw [pointLoad_cons_mk]
  by_cases hsel : equipmentId = e ∧
      committedStatus
        (if autoApprove then ReservationStatus.approved else ReservationStatus.pending) = true ∧
      pStart ≤ t ∧ t < pEnd
  · rw [if_pos hsel]
    obtain ⟨he, hcom, hcov1, hcov2⟩ := hsel
    subst he
    have hload := pointLoad_le_committedOverlapSum st.reservations equipmentId
      pStart pEnd t hcov1 hcov2
    omega
  · rw [if_neg hsel]
    have := hinv e t
    omega

/-- Processing any sequence of createReservation requests preserves the
allocation invariant. -/
theorem processAll_preserves_invariant (totalQuantity : Nat → Nat) :
    ∀ (reqs : List ReservationRequest) (st : EngineState),
      (∀ e t, pointLoad st.reservations e t ≤ totalQuantity e) →
      ∀ e t, pointLoad ((processAll totalQuantity reqs st).reservations) e t ≤
        totalQuantity e := by
  intro reqs
  induction reqs with
  | nil =>
    intro st h
    simpa [processAll] using h
  | cons req rest ih =>
    intro st h
    have hstep : ∀ e t,
        pointLoad ((stepCreate totalQuantity st req).reservations) e t ≤ totalQuantity e := by
      unfold stepCreate
      cases hc : createReservation totalQuantity req.autoApprove st req.equipmentId
          req.quantity req.startDate req.endDate with
      | ok st2 =>
        exact createReservation_preserves_invariant totalQuantity req.autoApprove st st2
          req.equipmentId req.quantity req.startDate req.endDate hc h
      | error err => exact h
    simpa [processAll, List.foldl_cons] using
      ih (stepCreate totalQuantity st req) hstep

/-- C1: starting from an empty store, after any sequence of
`createReservation` calls, for every equipment item and every point in
time the sum of the requested quantities of the committed
(`approved`/`active`) reservations whose intervals cover that point never
exceeds the item's `totalQuantity`. -/
theorem createReservation_never_overallocates (totalQuantity : Nat → Nat)
    (reqs : List ReservationRequest) (e : Nat) (t : Int) :
    pointLoad ((processAll totalQuantity reqs emptyState).reservations) e t ≤
      totalQuantity e :=
  processAll_preserves_invariant totalQuantity reqs emptyState
    (by intro e2 t2; simp [pointLoad, emptyState]) e t

/-- C2: with `totalQuantity = 2` and a committed reservation (id 1) for
2 units over `[Jun 15, Jun 17)` (days 15 to 17), requesting 1 unit of the
same item over `[Jun 16, Jun 18)` fails with `EquipmentUnavailable`
naming the conflicting reservation. -/
theorem createReservation_rejects_overlapping_last_units :
    createReservation (fun _ => 2) true
      ⟨[⟨1, 1, 2, 15, 17, ReservationStatus.approved⟩], 2⟩ 1 1 16 18 =
      Except.error (EngineError.EquipmentUnavailable [1]) := by
  rfl

/-- Result of an availability check: the remaining quantity, the
conflicting reservations, and the verdict for the requested quantity. -/
structure AvailabilityResult where
  availableQuantity : Nat
  conflictIds : List Nat
  available : Bool
deriving DecidableEq, Repr

/-- Modelled from the spec: `checkAvailability` (§4.1), the pure read-side
version of the overlap check of `createReservation`: it returns the
available quantity and the list of conflicting reservations, and computes
its availability verdict with the identical overlap predicate and
committed sum as `createReservation`, as the spec mandates. -/
def checkAvailability (totalQuantity : Nat → Nat) (st : EngineState)
    (equipmentId qty : Nat) (pStart pEnd : Int) :
    Except EngineError AvailabilityResult :=
  if pEnd ≤ pStart then
    Except.error EngineError.ValidationError
  else
    let conflicts := conflictingReservations st.reservations equipmentId pStart pEnd
    let s := (conflicts.map Reservation.quantity).sum
    Except.ok
      ⟨totalQuantity equipmentId - s, conflicts.map Reservation.id,
       decide (s + qty ≤ totalQuantity equipmentId)⟩

/-- Introduction rule for a successful `createReservation`. -/
theorem createReservation_ok_intro (totalQuantity : Nat → Nat) (autoApprove : Bool)
    (st : EngineState) (equipmentId qty : Nat) (pStart pEnd : Int)
    (h1 : ¬ pEnd ≤ pStart)
    (h2 : committedOverlapSum st.reservations equipmentId pStart pEnd + qty ≤
      totalQuantity equipmentId) :
    createReservation totalQuantity autoApprove st equipmentId qty pStart pEnd =
      Except.ok
        ⟨⟨st.nextId, equipmentId, qty, pStart, pEnd,
            if autoApprove then ReservationStatus.approved else ReservationStatus.pending⟩
           :: st.reservations,
         st.nextId + 1⟩ := by
  simp only [committedOverlapSum] at h2
  simp only [createReservation]
  rw [if_neg h1, if_neg (by omega)]

/-- C4: `checkAvailability` and `createReservation` decide conflicts with
the identical overlap predicate: whenever `checkAvailability` reports the
requested quantity available, a `createReservation` call with identical
parameters against the same state succeeds. -/
theorem checkAvailability_consistent_with_create (totalQuantity : Nat → Nat)
    (autoApprove : Bool) (st : EngineState) (equipmentId qty : Nat)
    (pStart pEnd : Int) (res : AvailabilityResult)
    (hok : checkAvailability totalQuantity st equipmentId qty pStart pEnd =
      Except.ok res)
    (hav : res.available = true) :
    ∃ st2, createReservation totalQuantity autoApprove st equipmentId qty pStart pEnd =
      Except.ok st2 := by
  simp only [checkAvailability] at hok
  split at hok
  · exact absurd hok (by simp)
  · next hlt =>
    rw [Except.ok.injEq] at hok
    subst hok
    simp only [decide_eq_true_eq] at hav
    exact ⟨_, createReservation_ok_intro totalQuantity autoApprove st equipmentId qty
      pStart pEnd hlt (by simpa [committedOverlapSum] using hav)⟩

/-- Witness for C4: an empty store with one unit in the catalogue; the
check reports 1 unit available over `[0, 1)` and the create succeeds. -/
theorem checkAvailability_consistent_with_create_witness :
    ∃ st2, createReservation (fun _ => 1) true emptyState 1 1 0 1 = Except.ok st2 :=
  checkAvailability_consistent_with_create (fun _ => 1) true emptyState 1 1 0 1
    ⟨1, [], true⟩ (by rfl) (by rfl)

/-- One step of request processing keeps every stored reservation's
interval well-formed. -/
theorem stepCreate_preserves_validDates (totalQuantity : Nat → Nat)
    (st : EngineState) (req : ReservationRequest)
    (h : ∀ r ∈ st.reservations, r.startDate < r.endDate) :
    ∀ r ∈ (stepCreate totalQuantity st req).reservations,
      r.startDate < r.endDate := by
  unfold stepCreate
  cases hc : createReservation totalQuantity req.autoApprove st req.equipmentId
      req.quantity req.startDate req.endDate with
  | error err => exact h
  | ok st2 =>
    obtain ⟨hlt, _, hst2⟩ := createReservation_ok_elim totalQuantity req.autoApprove
      st st2 req.equipmentId req.quantity req.startDate req.endDate hc
    subst hst2
    intro r hr
    simp only [List.mem_cons] at hr
    rcases hr with rfl | hr
    · exact hlt
    · exact h r hr

/-- Every reservation stored after any sequence of createReservation
requests has a well-formed interval. -/
theorem processAll_validDates (totalQuantity : Nat → Nat) :
    ∀ (reqs : List ReservationRequest) (st : EngineState),
      (∀ r ∈ st.reservations, r.startDate < r.endDate) →
      ∀ r ∈ (processAll totalQuantity reqs st).reservations,
        r.startDate < r.endDate := by
  intro reqs
  induction reqs with
  | nil =>
    intro st h
    simpa [processAll] using h
  | cons req rest ih =>
    intro st h
    simpa [processAll, List.foldl_cons] using
      ih (stepCreate totalQuantity st req)
        (stepCreate_preserves_validDates totalQuantity st req h)

/-- C5: every reservation stored by the engine satisfies
`endDate > startDate`, and a `createReservation` call whose interval does
not satisfy it fails with `ValidationError` and leaves the reservation
state unchanged. -/
theorem reservation_dates_valid :
    (∀ (totalQuantity : Nat → Nat) (reqs : List ReservationRequest) r,
        r ∈ (processAll totalQuantity reqs emptyState).reservations →
        r.startDate < r.endDate)
    ∧ (∀ (totalQuantity : Nat → Nat) (autoApprove : Bool) (st : EngineState)
        (equipmentId qty : Nat) (pStart pEnd : Int), pEnd ≤ pStart →
        createReservation totalQuantity autoApprove st equipmentId qty pStart pEnd =
          Except.error EngineError.ValidationError
        ∧ stepCreate totalQuantity st ⟨equipmentId, qty, pStart, pEnd, autoApprove⟩ = st) := by
  constructor
  · intro totalQuantity reqs r hr
    exact processAll_validDates totalQuantity reqs emptyState (by simp [emptyState]) r hr
  · intro totalQuantity autoApprove st equipmentId qty pStart pEnd h
    have hcreate : createReservation totalQuantity autoApprove st equipmentId qty
        pStart pEnd = Except.error EngineError.ValidationError := by
      simp only [createReservation]
      rw [if_pos h]
    refine ⟨hcreate, ?_⟩
    simp only [stepCreate]
    rw [hcreate]

/-- Witness for C5: a request over the empty interval `[9, 7)` is rejected
with `ValidationError` and the state stays empty. -/
theorem reservation_dates_valid_witness :
    createReservation (fun _ => 5) true emptyState 1 1 9 7 =
      Except.error EngineError.ValidationError
    ∧ stepCreate (fun _ => 5) emptyState ⟨1, 1, 9, 7, true⟩ = emptyState :=
  reservation_dates_valid.2 (fun _ => 5) true emptyState 1 1 9 7 (by decide)

/-- Modelled from the spec: the §4.2 ApprovalWorkflow transition table
over the `reservation_status` values:
pending to approved/rejected/cancelled, approved to cancelled/active,
active to completed/overdue; everything else is not in the table. -/
def allowedTransition : ReservationStatus → ReservationStatus → Bool
  | ReservationStatus.pending, ReservationStatus.approved => true
  | ReservationStatus.pending, ReservationStatus.rejected => true
  | ReservationStatus.pending, ReservationStatus.cancelled => true
  | ReservationStatus.approved, ReservationStatus.cancelled => true
  | ReservationStatus.approved, ReservationStatus.active => true
  | ReservationStatus.active, ReservationStatus.completed => true
  | ReservationStatus.active, ReservationStatus.overdue => true
  | _, _ => false

/-- Modelled from the spec: attempt a status transition; a pair outside
the §4.2 table fails with `InvalidStateTransition` naming the current and
the requested state. -/
def applyTransition (fromS toS : ReservationStatus) :
    Except EngineError ReservationStatus :=
  if allowedTransition fromS toS then Except.ok toS
  else Except.error (EngineError.InvalidStateTransition fromS toS)

/-- C6: the transition table is exhaustive over the seven reservation
statuses: every attempted transition whose pair is not in the §4.2 table
fails with `InvalidStateTransition` naming the current and the requested
state. -/
theorem invalid_transitions_rejected (fromS toS : ReservationStatus)
    (h : allowedTransition fromS toS = false) :
    applyTransition fromS toS =
      Except.error (EngineError.InvalidStateTransition fromS toS) := by
  simp [applyTransition, h]

/-- Witness for C6 at the pair named by the spec: approving a `completed`
reservation fails with `InvalidStateTransition` citing
`completed -> approved`. -/
theorem invalid_transitions_rejected_witness :
    allowedTransition ReservationStatus.completed ReservationStatus.approved = false
    ∧ applyTransition ReservationStatus.completed ReservationStatus.approved =
        Except.error (EngineError.InvalidStateTransition ReservationStatus.completed
          ReservationStatus.approved) :=
  ⟨by decide, invalid_transitions_rejected ReservationStatus.completed
    ReservationStatus.approved (by decide)⟩

/-- Dependency kind, from the SQL enum `dependency_type` in
`Docs/DATABASE_SCHEMA.md`: `('required', 'optional', 'recommended')`. -/
inductive DependencyType where
  | required
  | optional
  | recommended
deriving DecidableEq, Repr

/-- A dependency edge, from the `equipment_dependencies` table of
`Docs/DATABASE_SCHEMA.md` (parent item, dependent item, kind, quantity
required). -/
structure EquipmentDependency where
  parentEquipmentId : Nat
  dependentEquipmentId : Nat
  dependencyType : DependencyType
  quantityRequired : Nat
deriving DecidableEq, Repr

/-- The `required` dependency edges out of one parent item. -/
def requiredDeps (g : List EquipmentDependency) (parent : Nat) :
    List EquipmentDependency :=
  g.filter fun d =>
    d.parentEquipmentId == parent && d.dependencyType == DependencyType.required

/-- The dependency edges of `g` that are `required`. -/
def onlyRequired (g : List EquipmentDependency) : List EquipmentDependency :=
  g.filter fun d => d.dependencyType == DependencyType.required

/-- Modelled from the spec: recursive expansion of the `required`
dependencies of a requested item into the requested-items set, each
dependency's required quantity multiplied by the parent's requested
quantity; recursion is bounded by explicit fuel (the graph is kept acyclic
at definition time, so a fuel of `g.length + 1` reaches every dependency). -/
def expandRequired (g : List EquipmentDependency) :
    Nat → Nat → Nat → List (Nat × Nat)
  | 0, _, _ => []
  | fuel + 1, item, qty =>
    (item, qty) ::
      (requiredDeps g item).flatMap
        (fun d => expandRequired g fuel d.dependentEquipmentId (d.quantityRequired * qty))

/-- Restricting the graph to its `required` edges keeps the same required
dependencies of every parent. -/
theorem requiredDeps_onlyRequired (g : List EquipmentDependency) (parent : Nat) :
    requiredDeps (onlyRequired g) parent = requiredDeps g parent := by
  simp only [requiredDeps, onlyRequired, List.filter_filter]
  congr 1
  funext d
  simp [Bool.and_assoc, Bool.and_self]

/-- Expansion only reads the `required` edges: deleting the `optional` and
`recommended` edges from the graph changes nothing. -/
theorem expandRequired_ignores_optional (g : List EquipmentDependency) :
    ∀ (fuel item qty : Nat),
      expandRequired g fuel item qty = expandRequired (onlyRequired g) fuel item qty := by
  intro fuel
  induction fuel with
  | zero => intro item qty; rfl
  | succ n ih =>
    intro item qty
    simp only [expandRequired, requiredDeps_onlyRequired, ih]

/-- The dependency edges out of one parent item, of any kind. -/
def depsOf (g : List EquipmentDependency) (parent : Nat) :
    List EquipmentDependency :=
  g.filter fun d => d.parentEquipmentId == parent

/-- Fuel-bounded reachability along dependency edges. -/
def reachableFrom (g : List EquipmentDependency) :
    Nat → Nat → Nat → Bool
  | 0, a, b => a == b
  | fuel + 1, a, b =>
    a == b || (depsOf g a).any fun d => reachableFrom g fuel d.dependentEquipmentId b

/-- Modelled from the spec: equipment-definition-time insertion of a
dependency edge.  The dependency graph must stay acyclic and
non-self-referential (constraint `check_no_self_dependency` in the
schema), so an edge that would close a cycle is rejected with
`CycleDetected` here, at definition time. -/
def addDependency (g : List EquipmentDependency) (d : EquipmentDependency) :
    Except EngineError (List EquipmentDependency) :=
  if d.parentEquipmentId == d.dependentEquipmentId then
    Except.error EngineError.CycleDetected
  else if reachableFrom g (g.length + 1) d.dependentEquipmentId d.parentEquipmentId then
    Except.error EngineError.CycleDetected
  else
    Except.ok (d :: g)

/-- The expanded requested-items set of a request, with fuel sufficient
for any acyclic graph. -/
def expandedItems (g : List EquipmentDependency) (item qty : Nat) :
    List (Nat × Nat) :=
  expandRequired g (g.length + 1) item qty

/-- Insert one reservation row per expanded requested item, sharing the
request's interval and status. -/
def insertAll (st : EngineState) (items : List (Nat × Nat)) (pStart pEnd : Int)
    (autoApprove : Bool) : EngineState :=
  ⟨items.map (fun iq =>
      ⟨st.nextId, iq.1, iq.2, pStart, pEnd,
        if autoApprove then ReservationStatus.approved else ReservationStatus.pending⟩)
    ++ st.reservations,
   st.nextId + 1⟩

/-- Modelled from the spec: `createReservation` with dependency handling —
before running the overlap check the requested item is expanded through
its `required` dependencies; each expanded item is then checked with the
overlap algorithm, and on success every expanded item is persisted.  No
cycle detection happens here. -/
def createReservationExpanded (totalQuantity : Nat → Nat)
    (g : List EquipmentDependency) (autoApprove : Bool) (st : EngineState)
    (item qty : Nat) (pStart pEnd : Int) : Except EngineError EngineState :=
  if pEnd ≤ pStart then
    Except.error EngineError.ValidationError
  else
    match (expandedItems g item qty).find?
        (fun iq =>
          decide (committedOverlapSum st.reservations iq.1 pStart pEnd + iq.2 >
            totalQuantity iq.1)) with
    | some iq =>
      Except.error (EngineError.EquipmentUnavailable
        ((conflictingReservations st.reservations iq.1 pStart pEnd).map Reservation.id))
    | none =>
      Except.ok (insertAll st (expandedItems g item qty) pStart pEnd autoApprove)

/-- C7: before the overlap check the requested item is expanded
recursively through its `required` dependencies only, each dependency's
required quantity multiplied by the parent's requested quantity
(first conjunct); `optional` and `recommended` edges never contribute to
the expansion (second conjunct); an edge closing a dependency cycle is
rejected at equipment-definition time with `CycleDetected` (third
conjunct); and a reservation call never reports a cycle (fourth
conjunct). -/
theorem dependency_expansion_spec :
    (∀ (g : List EquipmentDependency) (fuel item qty : Nat),
        expandRequired g (fuel + 1) item qty =
          (item, qty) ::
            (requiredDeps g item).flatMap
              (fun d => expandRequired g fuel d.dependentEquipmentId
                (d.quantityRequired * qty)))
    ∧ (∀ (g : List EquipmentDependency) (fuel item qty : Nat),
        expandRequired g fuel item qty = expandRequired (onlyRequired g) fuel item qty)
    ∧ (∀ (g : List EquipmentDependency) (d : EquipmentDependency),
        reachableFrom g (g.length + 1) d.dependentEquipmentId d.parentEquipmentId = true →
        addDependency g d = Except.error EngineError.CycleDetected)
    ∧ (∀ (totalQuantity : Nat → Nat) (g : List EquipmentDependency)
        (autoApprove : Bool) (st : EngineState) (item qty : Nat) (pStart pEnd : Int),
        createReservationExpanded totalQuantity g autoApprove st item qty pStart pEnd ≠
          Except.error EngineError.CycleDetected) := by
  refine ⟨fun g fuel item qty => rfl, expandRequired_ignores_optional, ?_, ?_⟩
  · intro g d h
    simp only [addDependency]
    by_cases hself : (d.parentEquipmentId == d.dependentEquipmentId) = true
    · rw [if_pos hself]
    · rw [if_neg hself, if_pos h]
  · intro totalQuantity g autoApprove st item qty pStart pEnd
    simp only [createReservationExpanded]
    split
    · simp
    · split
      · simp
      · simp

/-- Witness for C7: adding the edge `2 -> 1` to a graph holding `1 -> 2`
closes a cycle and is rejected at definition time. -/
theorem dependency_expansion_spec_witness :
    addDependency [⟨1, 2, DependencyType.required, 1⟩]
        ⟨2, 1, DependencyType.required, 1⟩ =
      Except.error EngineError.CycleDetected :=
  dependency_expansion_spec.2.2.1 [⟨1, 2, DependencyType.required, 1⟩]
    ⟨2, 1, DependencyType.required, 1⟩ (by decide)

/-- An equipment entry, from the `Equipment` interface of
`src/components/EquipmentCard.tsx`. -/
structure Equipment where
  id : String
  name : String
  category : String
  status : String
  image : String
  specifications : List (String × String)
  description : String
deriving DecidableEq, Repr

/-- The first list of characters starts the second one. -/
def charsStartWith : List Char → List Char → Bool
  | [], _ => true
  | _ :: _, [] => false
  | a :: as, b :: bs => a == b && charsStartWith as bs

/-- The first list of characters occurs contiguously in the second one. -/
def charsContain (needle : List Char) : List Char → Bool
  | [] => charsStartWith needle []
  | b :: bs => charsStartWith needle (b :: bs) || charsContain needle bs

/-- JavaScript's `haystack.includes(needle)` substring test on strings. -/
def strIncludes (haystack needle : String) : Bool :=
  charsContain needle.toList haystack.toList

/-- JavaScript's `toLowerCase()`, as a character-wise case mapping
(ASCII letters; the catalog's Hebrew text has no case). -/
def strToLower (s : String) : String :=
  String.mk (s.data.map Char.toLower)

/-- The `mockEquipment` array of `src/pages/Equipment.tsx`. -/
def mockEquipment : List Equipment :=
  [⟨"1", "Canon EOS R5", "Cameras", "available",
    "https://images.unsplash.com/photo-1606983340126-99ab4feaa64a?w=400&h=300&fit=crop",
    [("רזולוציה", "45MP"), ("וידאו", "8K RAW"), ("חיבור", "RF Mount")],
    "מצלמה מקצועית ללא מראה עם יכולות וידאו 8K"⟩,
   ⟨"2", "Sony FX3", "Cameras", "checked-out",
    "https://images.unsplash.com/photo-1502920917128-1aa500764cbd?w=400&h=300&fit=crop",
    [("חיישן", "Full Frame"), ("הקלטה", "4K 120fps"), ("חיבור", "E Mount")],
    "מצלמת קולנוע מותאמת ליוצרי תוכן"⟩,
   ⟨"3", "Canon 24-70mm f/2.8L", "Lenses", "available",
    "https://images.unsplash.com/photo-1606983340187-52e86ca3803f?w=400&h=300&fit=crop",
    [("צמצם", "f/2.8"), ("מוקד", "24-70mm"), ("חיבור", "EF Mount")],
    "עדשת זום מקצועית לצילום רב תכליתי"⟩,
   ⟨"4", "Rode VideoMic Pro", "Audio", "available",
    "https://images.unsplash.com/photo-1487180144351-b8472da7d491?w=400&h=300&fit=crop",
    [("סוג", "Shotgun"), ("הזנה", "Battery/Phantom"), ("חיבור", "3.5mm/XLR")],
    "מיקרופון מקצועי למצלמה"⟩,
   ⟨"5", "Manfrotto Tripod", "Support", "maintenance",
    "https://images.unsplash.com/photo-1502134249126-9f3755a50d78?w=400&h=300&fit=crop",
    [("גובה", "165cm"), ("עומס", "8kg"), ("חומר", "Carbon Fiber")],
    "חצובה מקצועית מסיבי פחמן"⟩,
   ⟨"6", "Aputure 300D Mark II", "Lighting", "available",
    "https://images.unsplash.com/photo-1517142089942-ba376ce32a2e?w=400&h=300&fit=crop",
    [("הספק", "300W"), ("CRI", "96+"), ("שליטה", "Wireless")],
    "תאורת LED מקצועית עם שליטה אלחוטית"⟩]

/-- The search condition of the filter in `src/pages/Equipment.tsx`:
`item.name.toLowerCase().includes(searchTerm.toLowerCase()) ||
 item.description.toLowerCase().includes(searchTerm.toLowerCase())`. -/
def matchesSearch (item : Equipment) (searchTerm : String) : Bool :=
  strIncludes (strToLower item.name) (strToLower searchTerm) ||
  strIncludes (strToLower item.description) (strToLower searchTerm)

/-- The category condition of the filter:
`selectedCategory === "all" || item.category === selectedCategory`. -/
def matchesCategory (item : Equipment) (selectedCategory : String) : Bool :=
  selectedCategory == "all" || item.category == selectedCategory

/-- The status condition of the filter:
`selectedStatus === "all" || item.status === selectedStatus`. -/
def matchesStatus (item : Equipment) (selectedStatus : String) : Bool :=
  selectedStatus == "all" || item.status == selectedStatus

/-- The `filteredEquipment` computation of `src/pages/Equipment.tsx`:
`mockEquipment.filter(...)` returning
`matchesSearch && matchesCategory && matchesStatus`. -/
def filteredEquipment (searchTerm selectedCategory selectedStatus : String) :
    List Equipment :=
  mockEquipment.filter fun item =>
    matchesSearch item searchTerm && matchesCategory item selectedCategory &&
      matchesStatus item selectedStatus

/-- C9: the catalog filter keeps an item exactly when the lowercased
search term occurs in its lowercased name or description, the selected
category is "all" or equals the item's category, and the selected status
is "all" or equals the item's status; with an empty search term and both
selections "all" it returns the full `mockEquipment` list unchanged. -/
theorem filteredEquipment_spec :
    (∀ (searchTerm selectedCategory selectedStatus : String) (item : Equipment),
        item ∈ filteredEquipment searchTerm selectedCategory selectedStatus ↔
          item ∈ mockEquipment ∧
          (strIncludes (strToLower item.name) (strToLower searchTerm) = true ∨
            strIncludes (strToLower item.description) (strToLower searchTerm) = true) ∧
          (selectedCategory = "all" ∨ item.category = selectedCategory) ∧
          (selectedStatus = "all" ∨ item.status = selectedStatus))
    ∧ filteredEquipment "" "all" "all" = mockEquipment := by
  constructor
  · intro searchTerm selectedCategory selectedStatus item
    simp [filteredEquipment, matchesSearch, matchesCategory, matchesStatus,
      List.mem_filter, and_assoc]
  · rfl

/-- Disabled condition of the quick-reserve button in
`src/components/EquipmentCard.tsx`:
`disabled={equipment.status !== "available"}`. -/
def quickReserveDisabled (equipment : Equipment) : Bool :=
  equipment.status != "available"

/-- Disabled condition of the schedule button in
`src/components/EquipmentCard.tsx`:
`disabled={equipment.status !== "available"}`. -/
def scheduleDisabled (equipment : Equipment) : Bool :=
  equipment.status != "available"

/-- C10: both reservation buttons of `EquipmentCard` are disabled exactly
when the equipment's status is not the string "available"; no
non-"available" status exposes an enabled reserve action. -/
theorem reserve_buttons_disabled_iff_not_available (equipment : Equipment) :
    (quickReserveDisabled equipment = true ∧ scheduleDisabled equipment = true) ↔
      equipment.status ≠ "available" := by
  simp [quickReserveDisabled, scheduleDisabled, bne_iff_ne]
